import Mathlib

/-!
Shallow embedding of the Moka chaining library (src/moka/__init__.py):
a `List` subclass and a `Dict` subclass offering chainable transforms,
built on a placeholder-based partial-application helper `_f`.

Python objects are modelled as structures carrying a numeric object
identity `id` together with their contents, so that "returns a new
container" versus "returns the receiver itself" and "mutates the
receiver" versus "leaves it unchanged" are expressible.  Methods that
can write to their receiver return a pair `(returned value, state of
the receiver after the call)`.  Allocation of a new Python object is
modelled by an explicit `fresh` identity parameter.
-/

set_option autoImplicit false

universe u v w

variable {α : Type u} {β : Type v} {γ : Type w}

/-- The placeholder sentinel: Python's `Blank` class (`_ = Blank`).
An argument slot in a bound-argument list is either the sentinel or an
ordinary runtime value. -/
inductive Arg (α : Type u) where
  | blank
  | val (a : α)
  deriving DecidableEq

/-- Embeds Python's `list.index(a)`: index of the first occurrence of
`a` (meaningful only when `a` is a member, as at its call site in `_f`,
where it runs under `Blank in args`). -/
def listIndex [DecidableEq α] (a : α) : List α → Nat
  | [] => 0
  | x :: xs => if x = a then 0 else listIndex a xs + 1

/-- Embeds `List._f(f, *args)` (keyword arguments are not used by any
claim and are omitted).  The Python callable receives one runtime value
`x`:
* no bound arguments: call `f(x)`;
* bound arguments without the sentinel: call `f(x, *args)`;
* sentinel present: overwrite the slot at `args.index(Blank)` with `x`
  and call `f(*args)`.
`f` takes its positional-argument list, whose entries may in principle
still contain the sentinel (Python passes `Blank` itself along). -/
def mokaBind [DecidableEq α] (f : List (Arg α) → β) (args : List (Arg α)) : α → β :=
  fun x =>
    if args.isEmpty then f [Arg.val x]
    else if Arg.blank ∈ args then
      f (args.set (listIndex Arg.blank args) (Arg.val x))
    else f (Arg.val x :: args)

lemma listIndex_first [DecidableEq α] (a : α) (l₁ l₂ : List α) (h : a ∉ l₁) :
    listIndex a (l₁ ++ a :: l₂) = l₁.length := by
  induction l₁ with
  | nil => simp [listIndex]
  | cons b bs ih =>
      have hb : b ≠ a := fun e => h (e ▸ List.mem_cons_self b bs)
      have hbs : a ∉ bs := fun e => h (List.mem_cons_of_mem b e)
      simp [listIndex, hb, ih hbs]

lemma set_append_length [DecidableEq α] (l₁ l₂ : List α) (b v : α) :
    (l₁ ++ b :: l₂).set l₁.length v = l₁ ++ v :: l₂ := by
  induction l₁ with
  | nil => rfl
  | cons c cs ih => simp [List.set, ih]

/-- C6: when none of the bound arguments is the placeholder sentinel
(including the case of no bound arguments at all), the callable built by
`_f` prepends the runtime value: `mokaBind f args x = f (x :: args)`.
In particular `bind(add, 10)(5) = add(5, 10)`. -/
theorem moka_C6 [DecidableEq α] (f : List (Arg α) → β) (args : List (Arg α)) (x : α)
    (h : Arg.blank ∉ args) :
    mokaBind f args x = f (Arg.val x :: args) := by
  cases args with
  | nil => rfl
  | cons a as => simp [mokaBind, h]

/-- Two-argument addition on embedded argument lists: `add(a, b) = a + b`. -/
def addF : List (Arg Nat) → Nat
  | [Arg.val a, Arg.val b] => a + b
  | _ => 0

/-- Two-argument division on embedded argument lists:
`divide(a, b) = a / b` (integer division). -/
def divF : List (Arg Nat) → Nat
  | [Arg.val a, Arg.val b] => a / b
  | _ => 0

/-- Witness for `moka_C6` at the spec's own example:
`bind(add, 10)(5) = add(5, 10) = 15`. -/
theorem moka_C6_witness :
    mokaBind addF [Arg.val 10] 5 = addF [Arg.val 5, Arg.val 10] ∧
      addF [Arg.val 5, Arg.val 10] = 15 :=
  ⟨moka_C6 addF [Arg.val 10] 5 (by decide), by decide⟩

/-- C5, counterexample to the claim's particular instance:
`bind(divide, 10, PLACEHOLDER)(2)` substitutes `2` at the sentinel's
position (the second slot) and therefore computes `divide(10, 2) = 5`,
not `divide(2, 10) = 0` as the claim asserts. -/
theorem moka_C5_counterexample :
    mokaBind divF [Arg.val 10, Arg.blank] 2 ≠ divF [Arg.val 2, Arg.val 10] := by
  decide

/-- C5, amended: with exactly one occurrence of the sentinel among the
bound arguments, the callable built by `_f` substitutes the runtime
value at the sentinel's position and applies `f` to the substituted
argument list; in particular `bind(divide, 10, PLACEHOLDER)(2)` equals
`divide(10, 2)`. -/
theorem moka_C5_amended [DecidableEq α] (f : List (Arg α) → β) (l₁ l₂ : List (Arg α)) (x : α)
    (h₁ : Arg.blank ∉ l₁) (h₂ : Arg.blank ∉ l₂) :
    mokaBind f (l₁ ++ Arg.blank :: l₂) x = f (l₁ ++ Arg.val x :: l₂) := by
  have hne : (l₁ ++ Arg.blank :: l₂).isEmpty = false := by cases l₁ <;> rfl
  have hmem : Arg.blank ∈ l₁ ++ Arg.blank :: l₂ :=
    List.mem_append.mpr (Or.inr (List.mem_cons_self _ _))
  simp only [mokaBind, hne, Bool.false_eq_true, if_false, if_pos hmem,
    listIndex_first Arg.blank l₁ l₂ h₁, set_append_length]

/-- Witness for `moka_C5_amended`: the corrected value of the spec's
example, `bind(divide, 10, PLACEHOLDER)(2) = divide(10, 2) = 5`. -/
theorem moka_C5_witness :
    mokaBind divF ([Arg.val 10] ++ Arg.blank :: []) 2 =
        divF ([Arg.val 10] ++ Arg.val 2 :: []) ∧
      divF [Arg.val 10, Arg.val 2] = 5 :=
  ⟨moka_C5_amended divF [Arg.val 10] [] 2 (by decide) (by decide), by decide⟩

/-- A `moka.List` object: a Python object identity plus list contents. -/
structure MokaList (α : Type u) where
  id : Nat
  data : List α
  deriving DecidableEq

/-- Embeds the short-circuiting loop of `List.empty(pred)`: `continue`
while the predicate holds, return `False` at the first failure, `True`
when the loop completes. -/
def mokaEmptyPred (p : α → Bool) : List α → Bool
  | [] => true
  | x :: xs => if p x then mokaEmptyPred p xs else false

/-- Embeds the short-circuiting loop of `List.all(pred)`: return `False`
at the first element failing the predicate, `True` when the loop
completes. -/
def mokaAllLoop (p : α → Bool) : List α → Bool
  | [] => true
  | x :: xs => if p x then mokaAllLoop p xs else false

/-- Embeds the loop of `List.find(pred)`: return the first element
satisfying the predicate; falling off the loop returns `None`. -/
def mokaFind (p : α → Bool) : List α → Option α
  | [] => none
  | x :: xs => if p x then some x else mokaFind p xs

/-- Embeds `List.map(f)` for a bare one-argument function (the shape the
claims use; `_f` with no extra arguments resolves to `f` itself).
`_moka_assign` slice-assigns the mapped elements into the receiver and
returns `self`, so both the returned object and the receiver's
post-call state carry the receiver's identity and the mapped data. -/
def MokaList.map (o : MokaList α) (f : α → β) : MokaList β × MokaList β :=
  (⟨o.id, o.data.map f⟩, ⟨o.id, o.data.map f⟩)

/-- Embeds `List.keep(pred)`: `_moka_assign` of the elements satisfying
the predicate; returns `self`, receiver mutated. -/
def MokaList.keep (o : MokaList α) (p : α → Bool) : MokaList α × MokaList α :=
  (⟨o.id, o.data.filter p⟩, ⟨o.id, o.data.filter p⟩)

/-- Embeds `List.rem(pred)`: `_moka_assign` of the elements failing the
predicate; returns `self`, receiver mutated. -/
def MokaList.rem (o : MokaList α) (p : α → Bool) : MokaList α × MokaList α :=
  (⟨o.id, o.data.filter fun x => !p x⟩, ⟨o.id, o.data.filter fun x => !p x⟩)

/-- Embeds `List.clone()`: `List(self)` builds a fresh object with the
same contents; the receiver is read only. -/
def MokaList.clone (o : MokaList α) (fresh : Nat) : MokaList α × MokaList α :=
  (⟨fresh, o.data⟩, o)

/-- Embeds `List.empty()` with no predicate: `not bool(self)`. -/
def MokaList.empty (o : MokaList α) : Bool :=
  o.data.isEmpty

/-- Embeds `List.empty(pred)`. -/
def MokaList.emptyPred (o : MokaList α) (p : α → Bool) : Bool :=
  mokaEmptyPred p o.data

/-- Embeds `List.all(pred)`. -/
def MokaList.all (o : MokaList α) (p : α → Bool) : Bool :=
  mokaAllLoop p o.data

/-- Embeds `List.find(pred)`. -/
def MokaList.find (o : MokaList α) (p : α → Bool) : Option α :=
  mokaFind p o.data

/-- Embeds `List.count()` with no predicate: `len(self)`. -/
def MokaList.countAll (o : MokaList α) : Nat :=
  o.data.length

/-- Embeds `List.count(pred)`: `self.clone().keep(pred).count()`. -/
def MokaList.countPred (o : MokaList α) (p : α → Bool) (fresh : Nat) : Nat :=
  (((o.clone fresh).1).keep p).1.countAll

/-- Embeds `List.do(f, *args)` for the no-sentinel binder shape: `_f`
turns `(f, *args)` into `x -> f(x, *args)` and the method returns
`f(self, *args)` — the raw result, the receiver read only. -/
def MokaList.doCall (o : MokaList α) (f : List α → List β → γ) (args : List β) :
    γ × MokaList α :=
  (f o.data args, o)

/-- One call to a proxied builtin list mutator (the fixed name list
`['append', 'extend', 'sort', 'reverse', 'insert']` registered through
`List._proxy`). -/
inductive MutCall (α : Type u) where
  | append (x : α)
  | extend (xs : List α)
  | sortCall
  | reverseCall
  | insertAt (i : Nat) (x : α)

/-- The in-place effect of each proxied builtin mutator on list
contents: `append` adds at the end, `extend` concatenates, `sort` sorts
ascending (stably), `reverse` reverses, `insert(i, x)` inserts `x`
before index `i`. -/
def MutCall.run [LinearOrder α] : MutCall α → List α → List α
  | .append x, l => l ++ [x]
  | .extend xs, l => l ++ xs
  | .sortCall, l => l.insertionSort (· ≤ ·)
  | .reverseCall, l => l.reverse
  | .insertAt i x, l => l.take i ++ x :: l.drop i

/-- Embeds the wrapper built by `List._proxy(method_name)`:
`inst = List(self)` allocates a fresh object with the receiver's
contents, the builtin mutator runs on `inst`, and `inst` is returned;
the receiver is read only. -/
def MokaList.proxy [LinearOrder α] (o : MokaList α) (c : MutCall α) (fresh : Nat) :
    MokaList α × MokaList α :=
  (⟨fresh, c.run o.data⟩, o)

/-- C1, counterexample: `map` on the receiver with identity 0 and data
`[1, 2, 3]` leaves the receiver's data changed to `[3, 4, 5]` (so it
does mutate) and returns an object with the receiver's own identity (so
it is not a new container). -/
theorem moka_C1_counterexample :
    ¬ (((MokaList.mk 0 [1, 2, 3]).map fun n => n + 2).2.data = [1, 2, 3] ∧
        ((MokaList.mk 0 [1, 2, 3]).map fun n => n + 2).1.id ≠ 0) := by
  decide

/-- C1, amended: `map`, `keep` and `rem` slice-assign the transformed
elements into the receiver and return the receiver itself — the
returned object equals the receiver's post-call state, keeps the
receiver's identity, and holds the mapped (resp. filtered) data. -/
theorem moka_C1_amended (o : MokaList α) (f : α → β) (p q : α → Bool) :
    ((o.map f).1 = (o.map f).2 ∧ (o.map f).2.id = o.id ∧
        (o.map f).2.data = o.data.map f) ∧
      ((o.keep p).1 = (o.keep p).2 ∧ (o.keep p).2.id = o.id ∧
        (o.keep p).2.data = o.data.filter p) ∧
      ((o.rem q).1 = (o.rem q).2 ∧ (o.rem q).2.id = o.id ∧
        (o.rem q).2.data = o.data.filter fun x => !q x) :=
  ⟨⟨rfl, rfl, rfl⟩, ⟨rfl, rfl, rfl⟩, ⟨rfl, rfl, rfl⟩⟩

/-- C4: every proxied mutator call leaves the receiver's state exactly
unchanged, and returns a freshly allocated object holding the mutated
contents; when the fresh identity differs from the receiver's, further
proxied calls on the returned object `B` again leave `B` unchanged and
never touch an object with the receiver's identity, so the receiver's
element count is preserved. -/
theorem moka_C4 [LinearOrder α] (o : MokaList α) (c : MutCall α) (fresh : Nat) :
    (o.proxy c fresh).2 = o ∧
      (o.proxy c fresh).1.data = c.run o.data ∧
      (o.proxy c fresh).1.id = fresh ∧
      (fresh ≠ o.id →
        ∀ (c₂ : MutCall α) (fresh₂ : Nat),
          (((o.proxy c fresh).1.proxy c₂ fresh₂).2 = (o.proxy c fresh).1 ∧
            ((o.proxy c fresh).1.proxy c₂ fresh₂).2.id ≠ o.id) ∧
          (o.proxy c fresh).2.data.length = o.data.length) := by
  refine ⟨rfl, rfl, rfl, fun h c₂ fresh₂ => ⟨⟨rfl, h⟩, rfl⟩⟩

/-- Witness for `moka_C4`: appending 9 to the list `[1, 2]` (identity 0,
fresh identity 1) leaves the receiver at `⟨0, [1, 2]⟩` and yields
`⟨1, [1, 2, 9]⟩`; a further append on the result does not touch
identity 0. -/
theorem moka_C4_witness :
    ((MokaList.mk 0 [1, 2]).proxy (MutCall.append 9) 1).2 = MokaList.mk 0 [1, 2] ∧
      ((MokaList.mk 0 [1, 2]).proxy (MutCall.append 9) 1).1.data = [1, 2, 9] ∧
      (((MokaList.mk 0 [1, 2]).proxy (MutCall.append 9) 1).1.proxy
          (MutCall.append 7) 2).2.id ≠ 0 := by
  refine ⟨(moka_C4 (MokaList.mk 0 [1, 2]) (MutCall.append 9) 1).1, by decide, ?_⟩
  exact (((moka_C4 (MokaList.mk 0 [1, 2]) (MutCall.append 9) 1).2.2.2 (by decide)
    (MutCall.append 7) 2).1).2

lemma mokaEmptyPred_eq_true_iff (p : α → Bool) (l : List α) :
    mokaEmptyPred p l = true ↔ ∀ x ∈ l, p x = true := by
  induction l with
  | nil => simp [mokaEmptyPred]
  | cons a as ih =>
      by_cases h : p a = true
      · simp [mokaEmptyPred, h, ih]
      · simp [mokaEmptyPred, h]

lemma mokaAllLoop_eq_true_iff (p : α → Bool) (l : List α) :
    mokaAllLoop p l = true ↔ ∀ x ∈ l, p x = true := by
  induction l with
  | nil => simp [mokaAllLoop]
  | cons a as ih =>
      by_cases h : p a = true
      · simp [mokaAllLoop, h, ih]
      · simp [mokaAllLoop, h]

/-- C7: `empty()` with no predicate is true exactly when the list holds
no elements; `empty(pred)` is true exactly when every element satisfies
the predicate; and `all(pred)` agrees with chaining `keep` of the
negated predicate into `empty()`. -/
theorem moka_C7 (o : MokaList α) (p : α → Bool) :
    (o.empty = true ↔ o.data = []) ∧
      (o.emptyPred p = true ↔ ∀ x ∈ o.data, p x = true) ∧
      (o.all p = true ↔ (o.keep fun x => !p x).1.empty = true) := by
  refine ⟨by simp [MokaList.empty, List.isEmpty_iff], mokaEmptyPred_eq_true_iff p o.data, ?_⟩
  simp only [MokaList.all, MokaList.keep, MokaList.empty, List.isEmpty_iff,
    mokaAllLoop_eq_true_iff, List.filter_eq_nil_iff]
  constructor
  · intro h x hx
    simp [h x hx]
  · intro h x hx
    have := h x hx
    simpa using this

/-- Witness for `moka_C7` at `⟨0, [1, 2]⟩` with predicate `0 < n`. -/
theorem moka_C7_witness :
    ((MokaList.mk 0 [1, 2]).emptyPred fun n => decide (0 < n)) = true ∧
      ((MokaList.mk 0 [1, 2]).all fun n => decide (0 < n)) = true :=
  ⟨(moka_C7 (MokaList.mk 0 [1, 2]) (fun n => decide (0 < n))).2.1.mpr (by decide),
    ((moka_C7 (MokaList.mk 0 [1, 2]) (fun n => decide (0 < n))).2.2.mpr (by decide))⟩

/-- C8: the element count of `S.keep(pred)` equals `S.count(pred)`
(which clones, keeps, and takes the length). -/
theorem moka_C8 (o : MokaList α) (p : α → Bool) (fresh : Nat) :
    (o.keep p).1.countAll = o.countPred p fresh :=
  rfl

lemma mokaFind_append_of_none (p : α → Bool) (l₁ l₂ : List α)
    (h : ∀ y ∈ l₁, p y = false) :
    mokaFind p (l₁ ++ l₂) = mokaFind p l₂ := by
  induction l₁ with
  | nil => rfl
  | cons a as ih =>
      have ha : p a = false := h a (List.mem_cons_self a as)
      simp only [List.cons_append, mokaFind, ha, Bool.false_eq_true, if_false]
      exact ih fun y hy => h y (List.mem_cons_of_mem a hy)

lemma mokaFind_eq_none_of_all_false (p : α → Bool) (l : List α)
    (h : ∀ x ∈ l, p x = false) :
    mokaFind p l = none := by
  induction l with
  | nil => rfl
  | cons a as ih =>
      have ha : p a = false := h a (List.mem_cons_self a as)
      simp only [mokaFind, ha, Bool.false_eq_true, if_false]
      exact ih fun x hx => h x (List.mem_cons_of_mem a hx)

/-- C9: `find(pred)` returns the first element in iteration order that
satisfies the predicate — whenever the list splits as a prefix of
failing elements, a satisfying element `x`, and a remainder, the result
is `some x` — and when every element fails the predicate it returns the
explicit absent value `none` rather than an error. -/
theorem moka_C9 (o : MokaList α) (p : α → Bool) :
    (∀ (l₁ : List α) (x : α) (l₂ : List α),
        o.data = l₁ ++ x :: l₂ → (∀ y ∈ l₁, p y = false) → p x = true →
          o.find p = some x) ∧
      ((∀ x ∈ o.data, p x = false) → o.find p = none) := by
  constructor
  · intro l₁ x l₂ hsplit hpre hx
    simp only [MokaList.find, hsplit]
    rw [mokaFind_append_of_none p l₁ (x :: l₂) hpre]
    simp [mokaFind, hx]
  · intro h
    exact mokaFind_eq_none_of_all_false p o.data h

/-- Witness for `moka_C9`: on `⟨0, [1, 3, 2]⟩`, `find (2 < n)` returns
`some 3` (the first match) and `find (9 < n)` returns `none`. -/
theorem moka_C9_witness :
    ((MokaList.mk 0 [1, 3, 2]).find fun n => decide (2 < n)) = some 3 ∧
      ((MokaList.mk 0 [1, 3, 2]).find fun n => decide (9 < n)) = none :=
  ⟨(moka_C9 (MokaList.mk 0 [1, 3, 2]) (fun n => decide (2 < n))).1
      [1] 3 [2] rfl (by decide) (by decide),
    (moka_C9 (MokaList.mk 0 [1, 3, 2]) (fun n => decide (9 < n))).2 (by decide)⟩

variable {κ : Type u} {ν : Type v} {κ' : Type u} {ν' : Type v}

/-- One assignment step of Python `dict` construction: a repeated key
keeps its original position but takes the new value, a new key is
appended at the end. -/
def dictInsert [DecidableEq κ] (es : List (κ × ν)) (k : κ) (v : ν) : List (κ × ν) :=
  if es.any fun e => e.1 = k then
    es.map fun e => if e.1 = k then (k, v) else e
  else es ++ [(k, v)]

/-- Python `dict(pairs)`: fold the pairs into an entry list with unique
keys, preserving insertion order. -/
def dictOfPairs [DecidableEq κ] (ps : List (κ × ν)) : List (κ × ν) :=
  ps.foldl (fun es e => dictInsert es e.1 e.2) []

/-- A `moka.Dict` object: a Python object identity, the entry list, and
the `_moka_save` flag. -/
structure MokaDict (κ : Type u) (ν : Type v) where
  id : Nat
  entries : List (κ × ν)
  mokaSave : Bool
  deriving DecidableEq

/-- Embeds `Dict(...)` construction: `__init__` fills the mapping from
the given pairs and sets `_moka_save = False`. -/
def MokaDict.init [DecidableEq κ] (fresh : Nat) (ps : List (κ × ν)) : MokaDict κ ν :=
  ⟨fresh, dictOfPairs ps, false⟩

/-- Embeds `Dict._moka_assign(items)`: with `_moka_save` set the body is
`pass` — the items are discarded, the receiver is untouched and `None`
is returned; otherwise a fresh `Dict(items)` is returned, the receiver
again untouched. -/
def MokaDict.assign [DecidableEq κ'] (d : MokaDict κ ν) (items : List (κ' × ν'))
    (fresh : Nat) : Option (MokaDict κ' ν') × MokaDict κ ν :=
  if d.mokaSave then (none, d) else (some (MokaDict.init fresh items), d)

/-- Embeds `Dict.map(f)` for a bare two-argument function (`Dict._f`
with no extra arguments reduces to `f`): `_moka_assign` of
`f(x, y) for x, y in self.items()`. -/
def MokaDict.map [DecidableEq κ'] (d : MokaDict κ ν) (f : κ → ν → κ' × ν')
    (fresh : Nat) : Option (MokaDict κ' ν') × MokaDict κ ν :=
  d.assign (d.entries.map fun e => f e.1 e.2) fresh

/-- Embeds `Dict.keep(pred)`: `_moka_assign` of the entries whose key
and value satisfy the predicate. -/
def MokaDict.keep [DecidableEq κ] (d : MokaDict κ ν) (p : κ → ν → Bool)
    (fresh : Nat) : Option (MokaDict κ ν) × MokaDict κ ν :=
  d.assign (d.entries.filter fun e => p e.1 e.2) fresh

/-- Embeds `Dict.rem(pred)`: `_moka_assign` of the entries whose key and
value fail the predicate. -/
def MokaDict.rem [DecidableEq κ] (d : MokaDict κ ν) (p : κ → ν → Bool)
    (fresh : Nat) : Option (MokaDict κ ν) × MokaDict κ ν :=
  d.assign (d.entries.filter fun e => !p e.1 e.2) fresh

/-- Embeds `Dict.do(function, *args)`: stores `function(self, *args)`
in `last_value` (the second component) and returns `self` (the first
component); the receiver's entries are read only. -/
def MokaDict.doCall (d : MokaDict κ ν) (f : List (κ × ν) → List β → γ)
    (args : List β) : MokaDict κ ν × γ :=
  (d, f d.entries args)

/-- C2, counterexample: on a mapping with the `saveInPlace` flag set
(identity 0, entries `[(1, 0), (2, 5)]`), `keep (0 < v)` leaves the
receiver's entries at `[(1, 0), (2, 5)]` — they do not become the
filtered entries `[(2, 5)]` the claim promises. -/
theorem moka_C2_counterexample :
    ¬ ((MokaDict.keep ⟨0, [(1, 0), (2, 5)], true⟩
          (fun _ v => decide (0 < v)) 7).2.entries = [(2, 5)]) := by
  decide

/-- C2, amended: `map`/`keep`/`rem` never alter the receiver; when the
`saveInPlace` flag is set they do nothing at all and return `None`
(the items are discarded, the receiver keeps its old entries), and when
the flag is unset a fresh mapping built from the resulting key–value
pairs is returned. -/
theorem moka_C2_amended [DecidableEq κ] (d : MokaDict κ ν) (f : κ → ν → κ × ν)
    (p q : κ → ν → Bool) (fresh : Nat) :
    ((d.map f fresh).2 = d ∧ (d.keep p fresh).2 = d ∧ (d.rem q fresh).2 = d) ∧
      (d.mokaSave = true →
        (d.map f fresh).1 = none ∧ (d.keep p fresh).1 = none ∧
          (d.rem q fresh).1 = none) ∧
      (d.mokaSave = false →
        (d.map f fresh).1 =
            some (MokaDict.init fresh (d.entries.map fun e => f e.1 e.2)) ∧
          (d.keep p fresh).1 =
            some (MokaDict.init fresh (d.entries.filter fun e => p e.1 e.2)) ∧
          (d.rem q fresh).1 =
            some (MokaDict.init fresh (d.entries.filter fun e => !q e.1 e.2))) := by
  refine ⟨⟨?_, ?_, ?_⟩, fun h => ⟨?_, ?_, ?_⟩, fun h => ⟨?_, ?_, ?_⟩⟩ <;>
    first
      | (simp only [MokaDict.map, MokaDict.keep, MokaDict.rem, MokaDict.assign] <;>
          split <;> rfl)
      | simp [MokaDict.map, MokaDict.keep, MokaDict.rem, MokaDict.assign, h]

/-- Witness for `moka_C2_amended`: with the flag set, `keep` returns
`None`; with the flag unset, it returns the fresh filtered mapping. -/
theorem moka_C2_witness :
    (MokaDict.keep ⟨0, [(1, 0), (2, 5)], true⟩ (fun _ v => decide (0 < v)) 7).1 =
        none ∧
      (MokaDict.keep ⟨1, [(1, 0), (2, 5)], false⟩ (fun _ v => decide (0 < v)) 7).1 =
        some (MokaDict.init 7 [(2, 5)]) :=
  ⟨((moka_C2_amended ⟨0, [(1, 0), (2, 5)], true⟩ (fun k v => (k, v))
      (fun _ v => decide (0 < v)) (fun _ v => decide (0 < v)) 7).2.1 rfl).2.1,
    by
      have h := ((moka_C2_amended ⟨1, [(1, 0), (2, 5)], false⟩ (fun k v => (k, v))
        (fun _ v => decide (0 < v)) (fun _ v => decide (0 < v)) 7).2.2 rfl).2.1
      rw [h]
      decide⟩

/-- A helper function whose raw result is itself a mapping object with
identity 99, used to compare the return value of `Dict.do` with the raw
result of the called function. -/
def mkFresh99 (es : List (Nat × Nat)) (extra : List Nat) : MokaDict Nat Nat :=
  ⟨99, es, false⟩

/-- C3, counterexample: on a mapping chain, `do` returns the receiver
itself (identity 0 here), not the raw result of the function (which
here is a mapping with identity 99). -/
theorem moka_C3_counterexample :
    ¬ ((MokaDict.doCall ⟨0, [(1, 2)], false⟩ mkFresh99 []).1 =
        mkFresh99 [(1, 2)] []) := by
  decide

/-- C3, amended: on sequence chains `do(f, *args)` returns the raw
result `f(self, *args)` and leaves the receiver unchanged, but on
mapping chains `do` stores the raw result in `last_value` and returns
the receiver mapping itself. -/
theorem moka_C3_amended (o : MokaList α) (f : List α → List β → γ)
    (d : MokaDict κ ν) (g : List (κ × ν) → List β → γ) (args : List β) :
    (o.doCall f args).1 = f o.data args ∧ (o.doCall f args).2 = o ∧
      (d.doCall g args).1 = d ∧ (d.doCall g args).2 = g d.entries args :=
  ⟨rfl, rfl, rfl, rfl⟩

/-- C10: `Dict.__init__` always clears the `saveInPlace` flag, and no
operation ever sets it; so on any mapping with the flag unset, `keep`,
`rem` and `map` leave the receiver exactly unchanged and return a
freshly allocated mapping whose identity differs from the
receiver's. -/
theorem moka_C10 [DecidableEq κ] (i : Nat) (ps : List (κ × ν)) (d : MokaDict κ ν)
    (f : κ → ν → κ × ν) (p q : κ → ν → Bool) (fresh : Nat)
    (hsave : d.mokaSave = false) (hfresh : fresh ≠ d.id) :
    (MokaDict.init i ps).mokaSave = false ∧
      ((d.keep p fresh).2 = d ∧ (d.rem q fresh).2 = d ∧ (d.map f fresh).2 = d) ∧
      (∃ r, (d.keep p fresh).1 = some r ∧ r.id ≠ d.id) ∧
      (∃ r, (d.rem q fresh).1 = some r ∧ r.id ≠ d.id) ∧
      (∃ r, (d.map f fresh).1 = some r ∧ r.id ≠ d.id) := by
  refine ⟨rfl, ⟨?_, ?_, ?_⟩, ?_, ?_, ?_⟩ <;>
    simp [MokaDict.keep, MokaDict.rem, MokaDict.map, MokaDict.assign, hsave,
      MokaDict.init, hfresh]

/-- Witness for `moka_C10`: a publicly constructed mapping has the flag
unset, and `keep` on `⟨1, [(1, 0), (2, 5)], false⟩` with fresh
identity 7 leaves the receiver unchanged. -/
theorem moka_C10_witness :
    (MokaDict.init 3 [((1 : Nat), (4 : Nat))]).mokaSave = false ∧
      (MokaDict.keep ⟨1, [(1, 0), (2, 5)], false⟩ (fun _ v => decide (0 < v)) 7).2 =
        ⟨1, [(1, 0), (2, 5)], false⟩ :=
  ⟨(moka_C10 3 [((1 : Nat), (4 : Nat))] ⟨1, [(1, 0), (2, 5)], false⟩
      (fun k v => (k, v)) (fun _ v => decide (0 < v)) (fun _ v => decide (0 < v)) 7
      rfl (by decide)).1,
    (moka_C10 3 [((1 : Nat), (4 : Nat))] ⟨1, [(1, 0), (2, 5)], false⟩
      (fun k v => (k, v)) (fun _ v => decide (0 < v)) (fun _ v => decide (0 < v)) 7
      rfl (by decide)).2.1.1⟩
